import Mathlib

/-!
# gemara-mcp: the fetch cache, the cached fetcher and the advisory-mode tools

A shallow embedding of `internal/tool/fetcher/cache.go`,
`internal/tool/fetcher/fetcher.go`, `internal/tool/lexicon.go`,
`internal/tool/schemas.go` and `internal/tool/mode.go`.

Modelling conventions.

* A Go slice is the list of its elements; the `nil` slice and the empty slice
  are both `[]` (the code never compares a slice with `nil`). A `[]byte` is a
  list of byte values.
* A Go `error` is `Option GoError`: `none` is the `nil` error.
* `time.Time` values are readings of the process clock in nanoseconds (`Int`);
  `time.Since t` evaluated when the clock reads `now` is `now - t`. Every
  function that reads the clock takes the reading as an explicit argument.
  Go clamps a `Duration` to the `int64` range; the difference of two readings
  of the monotonic clock of one process stays inside it, and the model has no
  clamp.
* The underlying fetcher of a `CachedFetcher` acts on a world of its own and
  does not touch the cache. `State.calls` is a ghost counter of its
  invocations.
* The mutex of `Cache` orders the accesses; the model is sequential, one call
  after the other.
* `context.Context` and `*mcp.CallToolRequest` arguments carry no data that
  the modelled code inspects and are dropped.
-/

set_option maxRecDepth 8192

namespace Gemara

/-! ## Go values -/

/-- Go `[]byte`: the byte values it holds; `nil` is `[]`. -/
abbrev Bytes := List Nat

/-- Reading of the process clock, in nanoseconds. -/
abbrev Time := Int

/-- Go `time.Duration`, in nanoseconds. -/
abbrev Duration := Int

/-- Go `time.Hour`. -/
def Hour : Duration := 3600000000000

/-- Go `time.Second`. -/
def Second : Duration := 1000000000

/-- Go `time.Since(t)` evaluated when the clock reads `now`. -/
def Since (now t : Time) : Duration := now - t

/-- Go error values: `errors.New msg` (also `fmt.Errorf` without `%w`), and
`fmt.Errorf (pfx ++ "%w") err`, which wraps `err`. -/
inductive GoError where
  | new (msg : String) : GoError
  | wrapf (pfx : String) (err : GoError) : GoError
  deriving DecidableEq, Repr

/-- The `Error()` text of an error value. -/
def GoError.Error : GoError → String
  | .new msg => msg
  | .wrapf pfx err => pfx ++ err.Error

/-- Go `string(b)` for a byte slice: a Go string is a byte sequence and the
conversion keeps the bytes of `b` as they are. A string obtained this way is
kept as its bytes. -/
def goString (b : Bytes) : List Nat := b

/-! ## `fetcher/cache.go` -/

/-- The struct `cacheItem`. -/
structure cacheItem where
  data : Bytes
  source : String
  cacheTime : Time
  deriving DecidableEq, Repr

/-- The struct `Cache`; the Go map `items` is a finite partial function from
keys to items. -/
structure Cache where
  items : String → Option cacheItem
  ttl : Duration

/-- The function `NewCache(ttl)`. -/
def NewCache (ttl : Duration) : Cache :=
  { items := fun _ => none, ttl := ttl }

/-- The function `(*Cache).Get(source)`, evaluated when the clock reads `now`. -/
def Cache.Get (c : Cache) (source : String) (now : Time) : Bytes × String × Bool :=
  match c.items source with
  | none => ([], "", false)
  | some item =>
    -- Check if expired
    if Since now item.cacheTime ≥ c.ttl then
      ([], "", false)
    else
      (item.data, item.source, true)

/-- The function `(*Cache).Set(source, data, sourceID)`, where `time.Now()` reads `now`. -/
def Cache.Set (c : Cache) (source : String) (data : Bytes) (sourceID : String)
    (now : Time) : Cache :=
  { c with
    items := fun k =>
      if k = source then
        some { data := data, source := sourceID, cacheTime := now }
      else c.items k }


/-! ## `fetcher/fetcher.go` -/

/-- The return values `([]byte, string, error)` of a `Fetch`. -/
abbrev FetchResult := Bytes × String × Option GoError

/-- The interface `Fetcher`. An implementation is a stateful object: `Fetch`
takes the state of the world it acts on (for the HTTP fetcher the network, for
a test double its own fields) to its return values and the state it leaves.
The world of a fetcher does not include the cache. -/
structure Fetcher (σ : Type) where
  Fetch : σ → FetchResult × σ

/-- Go `http.StatusOK`. -/
def http.StatusOK : Int := 200

/-- The `%d` verb of `fmt` for an `int`: decimal digits, `-` before a negative
number. -/
def fmtD (n : Int) : String := toString n

/-- An `*http.Response` as far as `HTTPFetcher.Fetch` looks at it: the status
code, and what `io.ReadAll(resp.Body)` returns (the bytes read and the read
error). -/
structure Response where
  StatusCode : Int
  Body : Bytes × Option GoError

/-- The package `net/http`, external to the repository, as a parameter.
`NewRequest url` is the error of
`http.NewRequestWithContext(ctx, http.MethodGet, url, nil)`;
`Do timeout url w` is `client.Do(req)` for a client with that timeout, acting
on the network state `w`. -/
structure HTTPClient (σ : Type) where
  NewRequest : String → Option GoError
  Do : Duration → String → σ → Except GoError Response × σ

/-- The struct `HTTPFetcher`. -/
structure HTTPFetcher where
  url : String
  timeout : Duration

/-- The function `NewHTTPFetcher(url, timeout)`. -/
def NewHTTPFetcher (url : String) (timeout : Duration) : HTTPFetcher :=
  { url := url, timeout := timeout }

/-- The function `(*HTTPFetcher).Fetch(ctx)`. -/
def HTTPFetcher.Fetch {σ : Type} (f : HTTPFetcher) (net : HTTPClient σ) (w : σ) :
    FetchResult × σ :=
  match net.NewRequest f.url with
  | some err => (([], "", some (.wrapf "failed to create request: " err)), w)
  | none =>
    match net.Do f.timeout f.url w with
    | (.error err, w') => (([], "", some (.wrapf "failed to fetch data: " err)), w')
    | (.ok resp, w') =>
      if resp.StatusCode ≠ http.StatusOK then
        (([], "", some (.new ("unexpected status code: " ++ fmtD resp.StatusCode))), w')
      else
        match resp.Body with
        | (_, some err) =>
          (([], "", some (.wrapf "failed to read response body: " err)), w')
        | (body, none) => ((body, f.url, none), w')

/-- An `*HTTPFetcher` as a value of the interface `Fetcher`. -/
def HTTPFetcher.toFetcher {σ : Type} (f : HTTPFetcher) (net : HTTPClient σ) : Fetcher σ :=
  { Fetch := f.Fetch net }

/-- The struct `CachedFetcher`. Its field `cache` is a pointer to the shared
cache, which lives in the `State`. -/
structure CachedFetcher (σ : Type) where
  fetcher : Fetcher σ
  source : String

/-- The function `NewCachedFetcher(f, cache, source)`; the cache is the one of the state. -/
def NewCachedFetcher {σ : Type} (f : Fetcher σ) (source : String) : CachedFetcher σ :=
  { fetcher := f, source := source }

/-- What a call acts on: the shared cache, the world of the underlying fetcher,
and a ghost counter `calls` of the invocations of the underlying fetcher's
`Fetch` made so far. -/
structure State (σ : Type) where
  cache : Cache
  world : σ
  calls : Nat

/-- The function `(*CachedFetcher).Fetch(ctx, refresh)`. `tGet` is the clock reading when
`Cache.Get` evaluates `time.Since`, `tSet` the reading when `Cache.Set`
evaluates `time.Now()`. -/
def CachedFetcher.Fetch {σ : Type} (c : CachedFetcher σ) (refresh : Bool)
    (tGet tSet : Time) (s : State σ) : FetchResult × State σ :=
  let fetch : FetchResult × State σ :=
    match c.fetcher.Fetch s.world with
    | ((_, _, some err), w') =>
      (([], "", some err), { s with world := w', calls := s.calls + 1 })
    | ((data, sourceID, none), w') =>
      ((data, sourceID, none),
        { cache := s.cache.Set c.source data sourceID tSet,
          world := w', calls := s.calls + 1 })
  if !refresh then
    match s.cache.Get c.source tGet with
    | (cachedData, cachedSource, true) => ((cachedData, cachedSource, none), s)
    | (_, _, false) => fetch
  else fetch


/-! ## `lexicon.go` -/

/-- The struct `LexiconEntry`. -/
structure LexiconEntry where
  Term : String
  Definition : String
  References : List String
  deriving DecidableEq, Repr

/-- The struct `OutputGetLexicon`. -/
structure OutputGetLexicon where
  Entries : List LexiconEntry
  Source : String
  deriving DecidableEq, Repr

/-- The struct `InputGetLexicon`. -/
structure InputGetLexicon where
  Refresh : Bool
  deriving DecidableEq, Repr

/-- The decoder `yaml.Unmarshal(data, &entries)` of the external YAML library,
as a parameter: from the bytes to the value it leaves in `entries` and the
error it returns. -/
abbrev Unmarshal := Bytes → List LexiconEntry × Option GoError

/-- The function `GetLexicon(ctx, _, input, cachedFetcher)`. The first return value is
`nil` on every path and is left out. -/
def GetLexicon {σ : Type} (unmarshal : Unmarshal) (input : InputGetLexicon)
    (cachedFetcher : CachedFetcher σ) (tGet tSet : Time) (s : State σ) :
    (OutputGetLexicon × Option GoError) × State σ :=
  match cachedFetcher.Fetch input.Refresh tGet tSet s with
  | ((_, _, some err), s') => (({ Entries := [], Source := "" }, some err), s')
  | ((data, sourceID, none), s') =>
    match unmarshal data with
    | (_, some err) =>
      (({ Entries := [], Source := "" },
        some (.wrapf "failed to parse YAML: " err)), s')
    | (entries, none) => (({ Entries := entries, Source := sourceID }, none), s')

/-! ## `schemas.go` -/

/-- The struct `OutputGetSchemaDocs`; `Documentation` is a Go string obtained
from bytes and is kept as its bytes. -/
structure OutputGetSchemaDocs where
  Documentation : List Nat
  URL : String
  deriving DecidableEq, Repr

/-- The struct `InputGetSchemaDocs`. -/
structure InputGetSchemaDocs where
  Refresh : Bool
  Version : String
  deriving DecidableEq, Repr

/-- The function `GetSchemaDocs(ctx, _, input, cachedFetcher)`. The first return value is
`nil` on every path and is left out. -/
def GetSchemaDocs {σ : Type} (input : InputGetSchemaDocs)
    (cachedFetcher : CachedFetcher σ) (tGet tSet : Time) (s : State σ) :
    (OutputGetSchemaDocs × Option GoError) × State σ :=
  match cachedFetcher.Fetch input.Refresh tGet tSet s with
  | ((_, _, some err), s') => (({ Documentation := [], URL := "" }, some err), s')
  | ((data, sourceID, none), s') =>
    (({ Documentation := goString data, URL := sourceID }, none), s')

/-! ## `mode.go` -/

/-- The constant `httpTimeout`. -/
def httpTimeout : Duration := 30 * Second

/-- The constant `defaultSchemaVersion`. -/
def defaultSchemaVersion : String := "latest"

/-- The struct `AdvisoryMode`. Its field `cache` is a pointer to the shared
cache, which lives in the `State`. -/
structure AdvisoryMode where
  lexiconURL : String
  schemaDocsBaseURL : String

/-- The function `NewAdvisoryMode(cache)`. -/
def NewAdvisoryMode : AdvisoryMode :=
  { lexiconURL := "https://raw.githubusercontent.com/gemaraproj/gemara/main/docs/lexicon.yaml",
    schemaDocsBaseURL := "https://registry.cue.works/docs/github.com/gemaraproj/gemara@" }

/-- The function `AdvisoryMode.getLexicon(ctx, req, input)`. -/
def AdvisoryMode.getLexicon {σ : Type} (a : AdvisoryMode) (net : HTTPClient σ)
    (unmarshal : Unmarshal) (input : InputGetLexicon) (tGet tSet : Time)
    (s : State σ) : (OutputGetLexicon × Option GoError) × State σ :=
  let source := a.lexiconURL
  let f := NewHTTPFetcher source httpTimeout
  let cf := NewCachedFetcher (f.toFetcher net) source
  GetLexicon unmarshal input cf tGet tSet s

/-- The local `version` of `AdvisoryMode.getSchemaDocs` after its default is
applied. -/
def schemaDocsVersion (input : InputGetSchemaDocs) : String :=
  if input.Version = "" then defaultSchemaVersion else input.Version

/-- The local `source` of `AdvisoryMode.getSchemaDocs`. -/
def AdvisoryMode.schemaDocsSource (a : AdvisoryMode) (input : InputGetSchemaDocs) :
    String :=
  a.schemaDocsBaseURL ++ schemaDocsVersion input

/-- The function `AdvisoryMode.getSchemaDocs(ctx, req, input)`. -/
def AdvisoryMode.getSchemaDocs {σ : Type} (a : AdvisoryMode) (net : HTTPClient σ)
    (input : InputGetSchemaDocs) (tGet tSet : Time) (s : State σ) :
    (OutputGetSchemaDocs × Option GoError) × State σ :=
  let source := a.schemaDocsSource input
  let f := NewHTTPFetcher source httpTimeout
  let cf := NewCachedFetcher (f.toFetcher net) source
  GetSchemaDocs input cf tGet tSet s

/-- The cache states of a server run (`serveCmd` in `cli/root.go`): the cache
starts as `NewCache ttl`, and every step is an invocation of one of the two
handlers that `Register` gives the cache to, with any input, at any clock
readings. The third tool, `ValidateGemaraArtifact`, is registered without the
cache and has no step here. -/
inductive Reachable {σ : Type} (a : AdvisoryMode) (net : HTTPClient σ)
    (unmarshal : Unmarshal) (ttl : Duration) : State σ → Prop where
  | init (w : σ) : Reachable a net unmarshal ttl { cache := NewCache ttl, world := w, calls := 0 }
  | lexicon (s : State σ) (input : InputGetLexicon) (tGet tSet : Time) :
      Reachable a net unmarshal ttl s →
      Reachable a net unmarshal ttl (a.getLexicon net unmarshal input tGet tSet s).2
  | schemaDocs (s : State σ) (input : InputGetSchemaDocs) (tGet tSet : Time) :
      Reachable a net unmarshal ttl s →
      Reachable a net unmarshal ttl (a.getSchemaDocs net input tGet tSet s).2

/-! ## `fetcher/fetcher_test.go` -/

/-- The test double `mockFetcher`; its mutable field `callCount` is the state. -/
structure mockFetcher where
  data : Bytes
  source : String
  err : Option GoError

/-- The function `(*mockFetcher).Fetch(ctx)`. -/
def mockFetcher.Fetch (m : mockFetcher) (callCount : Nat) : FetchResult × Nat :=
  match m.err with
  | some err => (([], "", some err), callCount + 1)
  | none => ((m.data, m.source, none), callCount + 1)

/-- A `*mockFetcher` as a value of the interface `Fetcher`. -/
def mockFetcher.toFetcher (m : mockFetcher) : Fetcher Nat :=
  { Fetch := m.Fetch }


/-- The bytes of `"cached data"`. -/
def cachedDataBytes : Bytes := [99, 97, 99, 104, 101, 100, 32, 100, 97, 116, 97]

/-- The bytes of `"fresh data"`. -/
def freshDataBytes : Bytes := [102, 114, 101, 115, 104, 32, 100, 97, 116, 97]

/-- The mock of the test case "cache hit returns cached data". -/
def cacheHitMock : mockFetcher :=
  { data := cachedDataBytes, source := "mock://test", err := none }

/-- The mock of the test case "refresh bypasses cache". -/
def refreshMock : mockFetcher :=
  { data := freshDataBytes, source := "mock://test", err := none }

/-- The mock of the test case "fetch error propagates". -/
def errorMock : mockFetcher :=
  { data := [], source := "", err := some (.new "fetch failed") }

/-- The set-up of `TestCachedFetcher`: `NewCache(24 * time.Hour)` and a mock
that has not been called. -/
def testState : State Nat :=
  { cache := NewCache (24 * Hour), world := 0, calls := 0 }

/-- The cached fetcher of `TestCachedFetcher`, `source := "test://source"`. -/
def testCachedFetcher (m : mockFetcher) : CachedFetcher Nat :=
  NewCachedFetcher m.toFetcher "test://source"

/-- A state whose cache holds, under the key of `TestCachedFetcher`, an entry
written when the clock read `0`. -/
def staleState : State Nat :=
  { cache := (NewCache (24 * Hour)).Set "test://source" cachedDataBytes "mock://old" 0,
    world := 0, calls := 0 }


/-- A response server for tests: every request is answered with the status
`code` and the body `body`; the world counts the requests served. -/
def statusClient (code : Int) (body : Bytes) : HTTPClient Nat :=
  { NewRequest := fun _ => none,
    Do := fun _ _ n => (.ok { StatusCode := code, Body := (body, none) }, n + 1) }

/-! ## `lexicon_test.go` -/

/-- The bytes of the document of the test case "successful fetch and parse". -/
def validYAMLBytes : Bytes :=
  [45, 32, 116, 101, 114, 109, 58, 32, 65, 115, 115, 101, 115, 115, 109, 101,
   110, 116, 10, 32, 32, 100, 101, 102, 105, 110, 105, 116, 105, 111, 110,
   58, 32, 65, 116, 111, 109, 105, 99, 32, 112, 114, 111, 99, 101, 115, 115,
   32, 117, 115, 101, 100, 32, 116, 111, 32, 100, 101, 116, 101, 114, 109,
   105, 110, 101, 32, 97, 32, 114, 101, 115, 111, 117, 114, 99, 101, 39, 115,
   32, 99, 111, 109, 112, 108, 105, 97, 110, 99, 101, 10, 32, 32, 114, 101,
   102, 101, 114, 101, 110, 99, 101, 115, 58, 32, 91, 34, 76, 97, 121, 101,
   114, 32, 53, 34, 93, 10, 45, 32, 116, 101, 114, 109, 58, 32, 67, 111, 110,
   116, 114, 111, 108, 10, 32, 32, 100, 101, 102, 105, 110, 105, 116, 105,
   111, 110, 58, 32, 83, 97, 102, 101, 103, 117, 97, 114, 100, 32, 111, 114,
   32, 99, 111, 117, 110, 116, 101, 114, 109, 101, 97, 115, 117, 114, 101,
   10, 32, 32, 114, 101, 102, 101, 114, 101, 110, 99, 101, 115, 58, 32, 91,
   34, 76, 97, 121, 101, 114, 32, 50, 34, 93]

/-- The bytes of `"invalid: yaml: content: [unclosed"`, the document of the
test case "invalid YAML returns error". -/
def invalidYAMLBytes : Bytes :=
  [105, 110, 118, 97, 108, 105, 100, 58, 32, 121, 97, 109, 108, 58, 32, 99,
   111, 110, 116, 101, 110, 116, 58, 32, 91, 117, 110, 99, 108, 111, 115,
   101, 100]

/-- The two entries that `validYAMLBytes` encodes. -/
def validYAMLEntries : List LexiconEntry :=
  [{ Term := "Assessment",
     Definition := "Atomic process used to determine a resource's compliance",
     References := ["Layer 5"] },
   { Term := "Control",
     Definition := "Safeguard or countermeasure",
     References := ["Layer 2"] }]

/-- A decoder for the tests, standing in for the YAML library on the test
documents: it decodes `validYAMLBytes` and rejects everything else. -/
def testUnmarshal : Unmarshal := fun data =>
  if data = validYAMLBytes then (validYAMLEntries, none)
  else ([], some (.new "yaml: document is not a sequence of entries"))

/-- The mock of the test case "successful fetch and parse". -/
def validYAMLMock : mockFetcher :=
  { data := validYAMLBytes, source := "mock://lexicon.yaml", err := none }

/-- The mock of the test case "invalid YAML returns error". -/
def invalidYAMLMock : mockFetcher :=
  { data := invalidYAMLBytes, source := "mock://invalid.yaml", err := none }

/-- The cached fetcher of `TestGetLexicon`, `source := "mock://source"`. -/
def lexiconCachedFetcher (m : mockFetcher) : CachedFetcher Nat :=
  NewCachedFetcher m.toFetcher "mock://source"


/-- A documentation server for tests: every request is answered with status
200 and a body made of the code points of the requested URL; the world counts
the requests served. -/
def echoClient : HTTPClient Nat :=
  { NewRequest := fun _ => none,
    Do := fun _ url n =>
      (.ok { StatusCode := 200, Body := (url.data.map Char.toNat, none) }, n + 1) }

/-- The state of a server that has just started, with the cache of `serveCmd`
(`defaultCacheTTL`, 24 hours) and no request served. -/
def serveState : State Nat :=
  { cache := NewCache (24 * Hour), world := 0, calls := 0 }


/-- The state of the test server after one `get_schema_docs` call with no
version, made at clock readings 0 and 1. -/
def servedOnceState : State Nat :=
  (NewAdvisoryMode.getSchemaDocs echoClient { Refresh := false, Version := "" }
    0 1 serveState).2


/-- What the test server's documentation for `latest` looks like as a tool
output: the code points of the URL, and the URL. -/
def latestOutput : OutputGetSchemaDocs :=
  { Documentation :=
      List.map Char.toNat
        (String.data "https://registry.cue.works/docs/github.com/gemaraproj/gemara@latest"),
    URL := "https://registry.cue.works/docs/github.com/gemaraproj/gemara@latest" }

/-! ## Theorems: the fetch cache -/

/-- C4. `Get key` at read time `now` returns `(data, sourceID, true)` exactly
when an entry `(data, sourceID, t)` is stored under `key` and its age
`now - t` is strictly below the TTL; with no entry, or an entry whose age is
at or beyond the TTL, it returns `(nil, "", false)`. -/
theorem Cache.Get_spec (c : Cache) (key : String) (now : Time) :
    (∀ data sourceID,
      c.Get key now = (data, sourceID, true) ↔
        ∃ t, c.items key = some ⟨data, sourceID, t⟩ ∧ now - t < c.ttl) ∧
    ((c.items key = none ∨
        ∃ item, c.items key = some item ∧ c.ttl ≤ now - item.cacheTime) →
      c.Get key now = ([], "", false)) ∧
    ((c.Get key now).2.2 = false → c.Get key now = ([], "", false)) := by
  refine ⟨?_, ?_, ?_⟩
  · intro data sourceID
    unfold Cache.Get Since
    cases h : c.items key with
    | none => simp
    | some item =>
      obtain ⟨d, s, t⟩ := item
      by_cases hexp : now - t ≥ c.ttl
      · simp only [hexp, if_true]
        constructor
        · intro h'; simp at h'
        · rintro ⟨t', ht', hlt⟩
          simp only [Option.some.injEq, cacheItem.mk.injEq] at ht'
          obtain ⟨-, -, rfl⟩ := ht'
          exact absurd hexp (not_le.mpr hlt)
      · simp only [hexp, if_false, Prod.mk.injEq, and_true]
        constructor
        · rintro ⟨rfl, rfl⟩
          exact ⟨t, rfl, not_le.mp hexp⟩
        · rintro ⟨t', ht', -⟩
          simp only [Option.some.injEq, cacheItem.mk.injEq] at ht'
          exact ⟨ht'.1, ht'.2.1⟩
  · unfold Cache.Get Since
    rintro (h | ⟨item, h, hexp⟩)
    · simp [h]
    · simp [h, hexp]
  · unfold Cache.Get Since
    cases h : c.items key with
    | none => simp
    | some item =>
      by_cases hexp : now - item.cacheTime ≥ c.ttl
      · simp [hexp]
      · simp [hexp]

/-- What `Get` finds is a stored entry whose age is below the TTL. -/
theorem Cache.Get_found_inv (c : Cache) (key : String) (now : Time) (d : Bytes)
    (src : String) (h : c.Get key now = (d, src, true)) :
    ∃ t, c.items key = some ⟨d, src, t⟩ ∧ now - t < c.ttl := by
  unfold Cache.Get Since at h
  cases hi : c.items key with
  | none => simp [hi] at h
  | some item =>
    obtain ⟨d', s', t⟩ := item
    by_cases hexp : now - t ≥ c.ttl
    · simp [hi, hexp] at h
    · simp only [hi, hexp, if_false, Prod.mk.injEq, and_true] at h
      obtain ⟨rfl, rfl⟩ := h
      exact ⟨t, rfl, not_le.mp hexp⟩

/-- A `Get` of the key just written, before the entry's age reaches the TTL,
finds what was written. -/
theorem Cache.Get_Set_same (c : Cache) (key : String) (data : Bytes)
    (sourceID : String) (t t' : Time) (h : t' - t < c.ttl) :
    (c.Set key data sourceID t).Get key t' = (data, sourceID, true) := by
  have h' : ¬ (c.ttl ≤ t' - t) := not_le.mpr h
  simp [Cache.Get, Cache.Set, Since, h']

/-- The entry written at clock reading 0 into a cache with a TTL of 24 hours
is found one nanosecond before it is 24 hours old, and not when it is 24 hours
old; a key without an entry is never found. -/
theorem Cache.Get_spec_witness :
    staleState.cache.Get "test://source" (24 * Hour - 1)
      = (cachedDataBytes, "mock://old", true) ∧
    staleState.cache.Get "test://source" (24 * Hour) = ([], "", false) ∧
    staleState.cache.Get "test://other" 5 = ([], "", false) :=
  ⟨((Cache.Get_spec staleState.cache "test://source" (24 * Hour - 1)).1
      cachedDataBytes "mock://old").mpr ⟨0, by decide, by decide⟩,
   (Cache.Get_spec staleState.cache "test://source" (24 * Hour)).2.1
      (Or.inr ⟨⟨cachedDataBytes, "mock://old", 0⟩, by decide, by decide⟩),
   (Cache.Get_spec staleState.cache "test://other" 5).2.1 (Or.inl (by decide))⟩

/-- A `Get` of the key just written, once the entry's age has reached the TTL,
finds nothing. -/
theorem Cache.Get_Set_expired (c : Cache) (key : String) (data : Bytes)
    (sourceID : String) (t t' : Time) (h : c.ttl ≤ t' - t) :
    ((c.Set key data sourceID t).Get key t').2.2 = false := by
  simp [Cache.Get, Cache.Set, Since, h]

/-- A `Set` leaves what `Get` finds under every other key as it was. -/
theorem Cache.Get_Set_other (c : Cache) (key k' : String) (data : Bytes)
    (sourceID : String) (t now : Time) (h : k' ≠ key) :
    (c.Set key data sourceID t).Get k' now = c.Get k' now := by
  simp [Cache.Get, Cache.Set, h]

/-- C5. `Set key data sourceID` at time `t` replaces the entry of `key` by
`(data, sourceID, t)` whatever the cache held; a `Get key` at a time `t'` with
`0 ≤ t' - t < TTL` then returns `(data, sourceID, true)`, and `Get` of any
other key returns what it returned before. -/
theorem Cache.Set_spec (c : Cache) (key : String) (data : Bytes)
    (sourceID : String) (t : Time) :
    (c.Set key data sourceID t).items key = some ⟨data, sourceID, t⟩ ∧
    (c.Set key data sourceID t).ttl = c.ttl ∧
    (∀ t' : Time, 0 ≤ t' - t → t' - t < c.ttl →
      (c.Set key data sourceID t).Get key t' = (data, sourceID, true)) ∧
    (∀ (k' : String) (now : Time), k' ≠ key →
      (c.Set key data sourceID t).Get k' now = c.Get k' now) := by
  refine ⟨by simp [Cache.Set], rfl, ?_, ?_⟩
  · intro t' _ h
    exact Cache.Get_Set_same c key data sourceID t t' h
  · intro k' now h
    exact Cache.Get_Set_other c key k' data sourceID t now h

/-- Overwriting the entry of `"test://source"` at clock reading 10: the new
entry is found at 11, and the key `"test://other"` is found as before. -/
theorem Cache.Set_spec_witness :
    (staleState.cache.Set "test://source" freshDataBytes "mock://test" 10).Get
        "test://source" 11 = (freshDataBytes, "mock://test", true) ∧
    (staleState.cache.Set "test://source" freshDataBytes "mock://test" 10).Get
        "test://other" 11 = staleState.cache.Get "test://other" 11 :=
  ⟨(Cache.Set_spec staleState.cache "test://source" freshDataBytes "mock://test" 10).2.2.1
      11 (by decide) (by decide),
   (Cache.Set_spec staleState.cache "test://source" freshDataBytes "mock://test" 10).2.2.2
      "test://other" 11 (by decide)⟩

/-! ## Theorems: the cached fetcher -/

/-- Without `refresh`, a valid entry is returned and nothing changes. -/
theorem CachedFetcher.Fetch_hit {σ : Type} (c : CachedFetcher σ) (tGet tSet : Time)
    (s : State σ) (d : Bytes) (src : String)
    (h : s.cache.Get c.source tGet = (d, src, true)) :
    c.Fetch false tGet tSet s = ((d, src, none), s) := by
  simp [CachedFetcher.Fetch, h]

/-- With `refresh`, or without a valid entry, a successful fetch is returned
and written to the cache. -/
theorem CachedFetcher.Fetch_fresh_ok {σ : Type} (c : CachedFetcher σ) (refresh : Bool)
    (tGet tSet : Time) (s : State σ) (data : Bytes) (sourceID : String) (w' : σ)
    (hinv : refresh = true ∨ (s.cache.Get c.source tGet).2.2 = false)
    (hf : c.fetcher.Fetch s.world = ((data, sourceID, none), w')) :
    c.Fetch refresh tGet tSet s =
      ((data, sourceID, none),
        { cache := s.cache.Set c.source data sourceID tSet,
          world := w', calls := s.calls + 1 }) := by
  rcases hinv with rfl | hmiss
  · simp [CachedFetcher.Fetch, hf]
  · rcases hg : s.cache.Get c.source tGet with ⟨cd, cs, b⟩
    rw [hg] at hmiss
    simp only at hmiss
    subst hmiss
    cases refresh <;> simp [CachedFetcher.Fetch, hf, hg]

/-- With `refresh`, or without a valid entry, a failed fetch returns its error
and leaves the cache as it was. -/
theorem CachedFetcher.Fetch_fresh_err {σ : Type} (c : CachedFetcher σ) (refresh : Bool)
    (tGet tSet : Time) (s : State σ) (d : Bytes) (sid : String) (e : GoError) (w' : σ)
    (hinv : refresh = true ∨ (s.cache.Get c.source tGet).2.2 = false)
    (hf : c.fetcher.Fetch s.world = ((d, sid, some e), w')) :
    c.Fetch refresh tGet tSet s =
      (([], "", some e), { s with world := w', calls := s.calls + 1 }) := by
  rcases hinv with rfl | hmiss
  · simp [CachedFetcher.Fetch, hf]
  · rcases hg : s.cache.Get c.source tGet with ⟨cd, cs, b⟩
    rw [hg] at hmiss
    simp only at hmiss
    subst hmiss
    cases refresh <;> simp [CachedFetcher.Fetch, hf, hg]

/-- C1. Over a cache with no valid entry for the key, with an underlying
fetcher that succeeds with `(data, sourceID)`, and with the second `Get`
reading the clock less than the TTL after the first call's write: two
successive `Fetch(false)` calls both return `(data, sourceID)` with a nil
error, the source identifier being the fetcher's and not the key, and the
underlying fetcher is invoked once in total (by the first call). -/
theorem CachedFetcher.Fetch_twice_once {σ : Type} (c : CachedFetcher σ) (s : State σ)
    (tGet₁ tSet₁ tGet₂ tSet₂ : Time) (data : Bytes) (sourceID : String) (w' : σ)
    (hmiss : (s.cache.Get c.source tGet₁).2.2 = false)
    (hfetch : c.fetcher.Fetch s.world = ((data, sourceID, none), w'))
    (httl : tGet₂ - tSet₁ < s.cache.ttl) :
    (c.Fetch false tGet₁ tSet₁ s).1 = (data, sourceID, none) ∧
    (c.Fetch false tGet₂ tSet₂ (c.Fetch false tGet₁ tSet₁ s).2).1
      = (data, sourceID, none) ∧
    (c.Fetch false tGet₁ tSet₁ s).2.calls = s.calls + 1 ∧
    (c.Fetch false tGet₂ tSet₂ (c.Fetch false tGet₁ tSet₁ s).2).2.calls
      = s.calls + 1 ∧
    (c.Fetch false tGet₂ tSet₂ (c.Fetch false tGet₁ tSet₁ s).2).2.world = w' := by
  have h1 := CachedFetcher.Fetch_fresh_ok c false tGet₁ tSet₁ s data sourceID w'
    (Or.inr hmiss) hfetch
  have hget : (c.Fetch false tGet₁ tSet₁ s).2.cache.Get c.source tGet₂
      = (data, sourceID, true) := by
    rw [h1]
    exact Cache.Get_Set_same s.cache c.source data sourceID tSet₁ tGet₂ httl
  have h2 := CachedFetcher.Fetch_hit c tGet₂ tSet₂ (c.Fetch false tGet₁ tSet₁ s).2
    data sourceID hget
  rw [h2]
  rw [h1]
  exact ⟨rfl, rfl, rfl, rfl, rfl⟩

/-- The test case "cache hit returns cached data": the mock returns
`"cached data"` from `"mock://test"`, the key is `"test://source"`, the calls
read the clock at 0, 1, 2 and 3 ns. -/
theorem CachedFetcher.Fetch_twice_once_witness :
    ((testCachedFetcher cacheHitMock).Fetch false 0 1 testState).1
      = (cachedDataBytes, "mock://test", none) ∧
    ((testCachedFetcher cacheHitMock).Fetch false 2 3
        ((testCachedFetcher cacheHitMock).Fetch false 0 1 testState).2).1
      = (cachedDataBytes, "mock://test", none) ∧
    ((testCachedFetcher cacheHitMock).Fetch false 0 1 testState).2.calls = 0 + 1 ∧
    ((testCachedFetcher cacheHitMock).Fetch false 2 3
        ((testCachedFetcher cacheHitMock).Fetch false 0 1 testState).2).2.calls
      = 0 + 1 ∧
    ((testCachedFetcher cacheHitMock).Fetch false 2 3
        ((testCachedFetcher cacheHitMock).Fetch false 0 1 testState).2).2.world = 1 :=
  CachedFetcher.Fetch_twice_once (testCachedFetcher cacheHitMock) testState 0 1 2 3
    cachedDataBytes "mock://test" 1 rfl rfl (by decide)

/-- C2. `Fetch(true)` invokes the underlying fetcher whatever the cache holds
(also a valid entry for the key); when the fetch succeeds with
`(data, sourceID)` the call returns `(data, sourceID)` with a nil error and
the entry of the key becomes `(data, sourceID, tSet)`, so that a following
`Fetch(false)` whose `Get` reads the clock less than the TTL after `tSet`
returns `(data, sourceID)` without a further fetch. -/
theorem CachedFetcher.Fetch_refresh {σ : Type} (c : CachedFetcher σ) (s : State σ)
    (tGet tSet : Time) :
    (c.Fetch true tGet tSet s).2.calls = s.calls + 1 ∧
    (c.Fetch true tGet tSet s).2.world = (c.fetcher.Fetch s.world).2 ∧
    ∀ (data : Bytes) (sourceID : String) (w' : σ),
      c.fetcher.Fetch s.world = ((data, sourceID, none), w') →
        (c.Fetch true tGet tSet s).1 = (data, sourceID, none) ∧
        (c.Fetch true tGet tSet s).2.cache.items c.source
          = some ⟨data, sourceID, tSet⟩ ∧
        ∀ tGet' tSet' : Time, tGet' - tSet < s.cache.ttl →
          c.Fetch false tGet' tSet' (c.Fetch true tGet tSet s).2
            = ((data, sourceID, none), (c.Fetch true tGet tSet s).2) := by
  refine ⟨?_, ?_, ?_⟩
  · rcases hf : c.fetcher.Fetch s.world with ⟨⟨d, sid, e⟩, w'⟩
    cases e with
    | none =>
      rw [CachedFetcher.Fetch_fresh_ok c true tGet tSet s d sid w' (Or.inl rfl) hf]
    | some e =>
      rw [CachedFetcher.Fetch_fresh_err c true tGet tSet s d sid e w' (Or.inl rfl) hf]
  · rcases hf : c.fetcher.Fetch s.world with ⟨⟨d, sid, e⟩, w'⟩
    cases e with
    | none =>
      rw [CachedFetcher.Fetch_fresh_ok c true tGet tSet s d sid w' (Or.inl rfl) hf]
    | some e =>
      rw [CachedFetcher.Fetch_fresh_err c true tGet tSet s d sid e w' (Or.inl rfl) hf]
  · intro data sourceID w' hf
    have h1 := CachedFetcher.Fetch_fresh_ok c true tGet tSet s data sourceID w'
      (Or.inl rfl) hf
    refine ⟨by rw [h1], by rw [h1]; simp [Cache.Set], ?_⟩
    intro tGet' tSet' httl
    apply CachedFetcher.Fetch_hit
    rw [h1]
    exact Cache.Get_Set_same s.cache c.source data sourceID tSet tGet' httl

/-- The test case "refresh bypasses cache", over a cache that holds a valid
entry `("cached data", "mock://old")` for the key: the refreshing call at
clock readings 5 and 6 returns the mock's `"fresh data"`, and so does a
`Fetch(false)` at 7. -/
theorem CachedFetcher.Fetch_refresh_witness :
    staleState.cache.Get "test://source" 5 = (cachedDataBytes, "mock://old", true) ∧
    ((testCachedFetcher refreshMock).Fetch true 5 6 staleState).2.calls = 1 ∧
    ((testCachedFetcher refreshMock).Fetch true 5 6 staleState).1
      = (freshDataBytes, "mock://test", none) ∧
    ((testCachedFetcher refreshMock).Fetch false 7 8
        ((testCachedFetcher refreshMock).Fetch true 5 6 staleState).2).1
      = (freshDataBytes, "mock://test", none) :=
  ⟨by decide,
   (CachedFetcher.Fetch_refresh (testCachedFetcher refreshMock) staleState 5 6).1,
   ((CachedFetcher.Fetch_refresh (testCachedFetcher refreshMock) staleState 5 6).2.2
      freshDataBytes "mock://test" 1 rfl).1,
   congrArg Prod.fst
    (((CachedFetcher.Fetch_refresh (testCachedFetcher refreshMock) staleState 5 6).2.2
      freshDataBytes "mock://test" 1 rfl).2.2 7 8 (by decide))⟩

/-- C3. When the underlying fetcher is invoked (the call has `refresh`, or the
cache has no valid entry for the key) and reports an error `e`, `Fetch`
returns `e` itself with no data and an empty source identifier, and the cache
is left as it was: nothing is written, an entry that existed keeps its data,
source identifier and write time, and a later `Fetch(false)` at a time when
that entry is valid returns it. -/
theorem CachedFetcher.Fetch_error {σ : Type} (c : CachedFetcher σ) (refresh : Bool)
    (tGet tSet : Time) (s : State σ) (d : Bytes) (sid : String) (e : GoError) (w' : σ)
    (hinv : refresh = true ∨ (s.cache.Get c.source tGet).2.2 = false)
    (herr : c.fetcher.Fetch s.world = ((d, sid, some e), w')) :
    (c.Fetch refresh tGet tSet s).1 = ([], "", some e) ∧
    (c.Fetch refresh tGet tSet s).2.cache = s.cache ∧
    (c.Fetch refresh tGet tSet s).2.calls = s.calls + 1 ∧
    ∀ (t t' : Time) (data : Bytes) (src : String),
      s.cache.Get c.source t = (data, src, true) →
        c.Fetch false t t' (c.Fetch refresh tGet tSet s).2
          = ((data, src, none), (c.Fetch refresh tGet tSet s).2) := by
  have h1 := CachedFetcher.Fetch_fresh_err c refresh tGet tSet s d sid e w' hinv herr
  refine ⟨by rw [h1], by rw [h1], by rw [h1], ?_⟩
  intro t t' data src hget
  apply CachedFetcher.Fetch_hit
  rw [h1]
  exact hget

/-- A failed refresh over a cache that holds a valid entry for the key: the
mock's error `"fetch failed"` is returned, the cache is the one before, and a
`Fetch(false)` at clock reading 7 returns the entry written at 0. -/
theorem CachedFetcher.Fetch_error_witness :
    staleState.cache.Get "test://source" 7 = (cachedDataBytes, "mock://old", true) ∧
    ((testCachedFetcher errorMock).Fetch true 5 6 staleState).1
      = ([], "", some (.new "fetch failed")) ∧
    ((testCachedFetcher errorMock).Fetch true 5 6 staleState).2.cache
      = staleState.cache ∧
    ((testCachedFetcher errorMock).Fetch false 7 8
        ((testCachedFetcher errorMock).Fetch true 5 6 staleState).2).1
      = (cachedDataBytes, "mock://old", none) :=
  have h := CachedFetcher.Fetch_error (testCachedFetcher errorMock) true 5 6 staleState
    [] "" (.new "fetch failed") 1 (Or.inl rfl) rfl
  ⟨by decide, h.1, h.2.1, congrArg Prod.fst (h.2.2.2 7 8 cachedDataBytes "mock://old" (by decide))⟩

/-! ## Theorems: the HTTP fetcher -/

/-- C10. For a response that the transport delivers: with a status code other
than 200, `HTTPFetcher.Fetch` returns no data, an empty source identifier and
an error whose text is `unexpected status code: ` followed by the code in
decimal; with status 200 and a body read without error it returns the body
and the fetcher's URL as the source identifier. -/
theorem HTTPFetcher.Fetch_status {σ : Type} (f : HTTPFetcher) (net : HTTPClient σ)
    (w w' : σ) (resp : Response)
    (hreq : net.NewRequest f.url = none)
    (hdo : net.Do f.timeout f.url w = (.ok resp, w')) :
    (resp.StatusCode ≠ 200 →
      ∃ err : GoError, f.Fetch net w = (([], "", some err), w') ∧
        err.Error = "unexpected status code: " ++ toString resp.StatusCode) ∧
    (resp.StatusCode = 200 → ∀ body : Bytes, resp.Body = (body, none) →
      f.Fetch net w = ((body, f.url, none), w')) := by
  constructor
  · intro hne
    refine ⟨.new ("unexpected status code: " ++ fmtD resp.StatusCode), ?_, rfl⟩
    simp [HTTPFetcher.Fetch, hreq, hdo, http.StatusOK, hne]
  · intro h200 body hbody
    simp [HTTPFetcher.Fetch, hreq, hdo, http.StatusOK, h200, hbody]

/-- A `404` answer gives the error `unexpected status code: 404` and no data;
a `200` answer gives the body and the URL. -/
theorem HTTPFetcher.Fetch_status_witness :
    (∃ err : GoError,
      (NewHTTPFetcher "http://localhost/lexicon.yaml" httpTimeout).Fetch
          (statusClient 404 cachedDataBytes) 0 = (([], "", some err), 1) ∧
        err.Error = "unexpected status code: 404") ∧
    (NewHTTPFetcher "http://localhost/lexicon.yaml" httpTimeout).Fetch
        (statusClient 200 cachedDataBytes) 0
      = ((cachedDataBytes, "http://localhost/lexicon.yaml", none), 1) :=
  ⟨(HTTPFetcher.Fetch_status (NewHTTPFetcher "http://localhost/lexicon.yaml" httpTimeout)
      (statusClient 404 cachedDataBytes) 0 1
      { StatusCode := 404, Body := (cachedDataBytes, none) } rfl rfl).1 (by decide),
   (HTTPFetcher.Fetch_status (NewHTTPFetcher "http://localhost/lexicon.yaml" httpTimeout)
      (statusClient 200 cachedDataBytes) 0 1
      { StatusCode := 200, Body := (cachedDataBytes, none) } rfl rfl).2 rfl
      cachedDataBytes rfl⟩

/-! ## Theorems: the lexicon tool -/

/-- The result of `GetLexicon` after a failed fetch. -/
theorem GetLexicon_fetch_err {σ : Type} (unmarshal : Unmarshal) (input : InputGetLexicon)
    (cf : CachedFetcher σ) (tGet tSet : Time) (s s' : State σ)
    (d : Bytes) (sid : String) (e : GoError)
    (h : cf.Fetch input.Refresh tGet tSet s = ((d, sid, some e), s')) :
    GetLexicon unmarshal input cf tGet tSet s
      = (({ Entries := [], Source := "" }, some e), s') := by
  simp [GetLexicon, h]

/-- The result of `GetLexicon` after a fetch whose bytes the decoder rejects. -/
theorem GetLexicon_parse_err {σ : Type} (unmarshal : Unmarshal) (input : InputGetLexicon)
    (cf : CachedFetcher σ) (tGet tSet : Time) (s s' : State σ)
    (d : Bytes) (sid : String) (left : List LexiconEntry) (e : GoError)
    (h : cf.Fetch input.Refresh tGet tSet s = ((d, sid, none), s'))
    (hp : unmarshal d = (left, some e)) :
    GetLexicon unmarshal input cf tGet tSet s
      = (({ Entries := [], Source := "" },
          some (.wrapf "failed to parse YAML: " e)), s') := by
  simp [GetLexicon, h, hp]

/-- The result of `GetLexicon` after a fetch whose bytes the decoder accepts. -/
theorem GetLexicon_ok {σ : Type} (unmarshal : Unmarshal) (input : InputGetLexicon)
    (cf : CachedFetcher σ) (tGet tSet : Time) (s s' : State σ)
    (d : Bytes) (sid : String) (entries : List LexiconEntry)
    (h : cf.Fetch input.Refresh tGet tSet s = ((d, sid, none), s'))
    (hp : unmarshal d = (entries, none)) :
    GetLexicon unmarshal input cf tGet tSet s
      = (({ Entries := entries, Source := sid }, none), s') := by
  simp [GetLexicon, h, hp]

/-- C7. `GetLexicon` has three outcomes, decided by the cached fetch and the
decoder: a fetch error `e` is returned as it is with the empty output; bytes
that the decoder rejects with `e` give the empty output and the error
`failed to parse YAML: ` wrapping `e`, whatever the decoder left in the list;
bytes that the decoder accepts give, with a nil error, the whole decoded list
in the decoder's order and the source identifier of the fetch. -/
theorem GetLexicon_outcomes {σ : Type} (unmarshal : Unmarshal) (input : InputGetLexicon)
    (cf : CachedFetcher σ) (tGet tSet : Time) (s : State σ) :
    (∀ e : GoError, (cf.Fetch input.Refresh tGet tSet s).1.2.2 = some e →
      GetLexicon unmarshal input cf tGet tSet s
        = (({ Entries := [], Source := "" }, some e),
            (cf.Fetch input.Refresh tGet tSet s).2)) ∧
    (∀ e : GoError, (cf.Fetch input.Refresh tGet tSet s).1.2.2 = none →
      (unmarshal (cf.Fetch input.Refresh tGet tSet s).1.1).2 = some e →
      GetLexicon unmarshal input cf tGet tSet s
        = (({ Entries := [], Source := "" },
            some (.wrapf "failed to parse YAML: " e)),
            (cf.Fetch input.Refresh tGet tSet s).2) ∧
      (GoError.wrapf "failed to parse YAML: " e).Error
        = "failed to parse YAML: " ++ e.Error) ∧
    ((cf.Fetch input.Refresh tGet tSet s).1.2.2 = none →
      (unmarshal (cf.Fetch input.Refresh tGet tSet s).1.1).2 = none →
      GetLexicon unmarshal input cf tGet tSet s
        = (({ Entries := (unmarshal (cf.Fetch input.Refresh tGet tSet s).1.1).1,
              Source := (cf.Fetch input.Refresh tGet tSet s).1.2.1 }, none),
            (cf.Fetch input.Refresh tGet tSet s).2)) := by
  rcases hF : cf.Fetch input.Refresh tGet tSet s with ⟨⟨d, sid, fe⟩, s'⟩
  rcases hU : unmarshal d with ⟨left, pe⟩
  refine ⟨?_, ?_, ?_⟩
  · intro e he
    simp only at he
    subst he
    exact GetLexicon_fetch_err unmarshal input cf tGet tSet s s' d sid e hF
  · intro e he hpe
    simp only at he
    subst he
    simp only [hU] at hpe
    subst hpe
    exact ⟨GetLexicon_parse_err unmarshal input cf tGet tSet s s' d sid left e hF hU, rfl⟩
  · intro he hpe
    simp only at he
    subst he
    simp only [hU] at hpe
    subst hpe
    simp only [hU]
    exact GetLexicon_ok unmarshal input cf tGet tSet s s' d sid left hF hU

/-- The three cases of `TestGetLexicon`: a failing mock, the invalid document
and the document with the entries `Assessment` and `Control`. -/
theorem GetLexicon_outcomes_witness :
    (GetLexicon testUnmarshal { Refresh := false } (lexiconCachedFetcher errorMock)
        0 1 testState).1
      = ({ Entries := [], Source := "" }, some (.new "fetch failed")) ∧
    (GetLexicon testUnmarshal { Refresh := false } (lexiconCachedFetcher invalidYAMLMock)
        0 1 testState).1
      = ({ Entries := [], Source := "" },
          some (.wrapf "failed to parse YAML: "
            (.new "yaml: document is not a sequence of entries"))) ∧
    (GetLexicon testUnmarshal { Refresh := false } (lexiconCachedFetcher validYAMLMock)
        0 1 testState).1
      = ({ Entries := validYAMLEntries, Source := "mock://lexicon.yaml" }, none) :=
  ⟨congrArg Prod.fst
    ((GetLexicon_outcomes testUnmarshal { Refresh := false }
      (lexiconCachedFetcher errorMock) 0 1 testState).1 (.new "fetch failed") rfl),
   congrArg Prod.fst
    (((GetLexicon_outcomes testUnmarshal { Refresh := false }
      (lexiconCachedFetcher invalidYAMLMock) 0 1 testState).2.1
        (.new "yaml: document is not a sequence of entries") rfl (by decide)).1),
   congrArg Prod.fst
    ((GetLexicon_outcomes testUnmarshal { Refresh := false }
      (lexiconCachedFetcher validYAMLMock) 0 1 testState).2.2 rfl (by decide))⟩

/-- The three ways a `Fetch` call can go. -/
theorem CachedFetcher.Fetch_cases {σ : Type} (c : CachedFetcher σ) (refresh : Bool)
    (tGet tSet : Time) (s : State σ) :
    (refresh = false ∧ ∃ d src, s.cache.Get c.source tGet = (d, src, true) ∧
      c.Fetch refresh tGet tSet s = ((d, src, none), s)) ∨
    ((refresh = true ∨ (s.cache.Get c.source tGet).2.2 = false) ∧
      ∃ data sourceID w', c.fetcher.Fetch s.world = ((data, sourceID, none), w') ∧
        c.Fetch refresh tGet tSet s =
          ((data, sourceID, none),
            { cache := s.cache.Set c.source data sourceID tSet,
              world := w', calls := s.calls + 1 })) ∨
    ((refresh = true ∨ (s.cache.Get c.source tGet).2.2 = false) ∧
      ∃ d sid e w', c.fetcher.Fetch s.world = ((d, sid, some e), w') ∧
        c.Fetch refresh tGet tSet s =
          (([], "", some e), { s with world := w', calls := s.calls + 1 })) := by
  have key : ∀ hinv : refresh = true ∨ (s.cache.Get c.source tGet).2.2 = false,
      ((refresh = true ∨ (s.cache.Get c.source tGet).2.2 = false) ∧
        ∃ data sourceID w', c.fetcher.Fetch s.world = ((data, sourceID, none), w') ∧
          c.Fetch refresh tGet tSet s =
            ((data, sourceID, none),
              { cache := s.cache.Set c.source data sourceID tSet,
                world := w', calls := s.calls + 1 })) ∨
      ((refresh = true ∨ (s.cache.Get c.source tGet).2.2 = false) ∧
        ∃ d sid e w', c.fetcher.Fetch s.world = ((d, sid, some e), w') ∧
          c.Fetch refresh tGet tSet s =
            (([], "", some e), { s with world := w', calls := s.calls + 1 })) := by
    intro hinv
    rcases hf : c.fetcher.Fetch s.world with ⟨⟨d, sid, e⟩, w'⟩
    cases e with
    | none =>
      exact Or.inl ⟨hinv, d, sid, w', rfl,
        CachedFetcher.Fetch_fresh_ok c refresh tGet tSet s d sid w' hinv hf⟩
    | some e =>
      exact Or.inr ⟨hinv, d, sid, e, w', rfl,
        CachedFetcher.Fetch_fresh_err c refresh tGet tSet s d sid e w' hinv hf⟩
  cases refresh with
  | true => exact Or.inr (key (Or.inl rfl))
  | false =>
    rcases hg : s.cache.Get c.source tGet with ⟨cd, cs, b⟩
    cases b with
    | true =>
      exact Or.inl ⟨rfl, cd, cs, rfl, CachedFetcher.Fetch_hit c tGet tSet s cd cs hg⟩
    | false =>
      have := key (Or.inr (by rw [hg]))
      rw [hg] at this
      exact Or.inr this

/-- A `Fetch` that invokes the underlying fetcher counts one invocation. -/
theorem CachedFetcher.Fetch_invoked_calls {σ : Type} (c : CachedFetcher σ)
    (refresh : Bool) (tGet tSet : Time) (s : State σ)
    (hinv : refresh = true ∨ (s.cache.Get c.source tGet).2.2 = false) :
    (c.Fetch refresh tGet tSet s).2.calls = s.calls + 1 := by
  rcases hf : c.fetcher.Fetch s.world with ⟨⟨d, sid, e⟩, w'⟩
  cases e with
  | none => rw [CachedFetcher.Fetch_fresh_ok c refresh tGet tSet s d sid w' hinv hf]
  | some e => rw [CachedFetcher.Fetch_fresh_err c refresh tGet tSet s d sid e w' hinv hf]

/-- The state that `GetLexicon` leaves is the one its `Fetch` leaves. -/
theorem GetLexicon_state {σ : Type} (unmarshal : Unmarshal) (input : InputGetLexicon)
    (cf : CachedFetcher σ) (tGet tSet : Time) (s : State σ) :
    (GetLexicon unmarshal input cf tGet tSet s).2
      = (cf.Fetch input.Refresh tGet tSet s).2 := by
  rcases hF : cf.Fetch input.Refresh tGet tSet s with ⟨⟨d, sid, fe⟩, s'⟩
  rcases hU : unmarshal d with ⟨left, pe⟩
  cases fe with
  | some e => rw [GetLexicon_fetch_err unmarshal input cf tGet tSet s s' d sid e hF]
  | none =>
    cases pe with
    | some e => rw [GetLexicon_parse_err unmarshal input cf tGet tSet s s' d sid left e hF hU]
    | none => rw [GetLexicon_ok unmarshal input cf tGet tSet s s' d sid left hF hU]

/-- C8. When `GetLexicon` invokes the underlying fetcher, the fetch succeeds
with `(data, sourceID)` and the decoder rejects `data` with `e`: the call
returns the parse error, yet the cache entry of the key is
`(data, sourceID, tSet)`. Every later `GetLexicon` call without `refresh`
whose `Get` reads the clock less than the TTL after `tSet` returns the same
parse error, invokes no fetch and changes nothing, and so does any sequence
of such calls; a call with `refresh`, or one made when the entry's age has
reached the TTL, invokes the underlying fetcher again. -/
theorem GetLexicon_bad_bytes_cached {σ : Type} (unmarshal : Unmarshal)
    (cf : CachedFetcher σ) (refresh : Bool) (tGet tSet : Time) (s : State σ)
    (data : Bytes) (sourceID : String) (w' : σ) (left : List LexiconEntry) (e : GoError)
    (hinv : refresh = true ∨ (s.cache.Get cf.source tGet).2.2 = false)
    (hfetch : cf.fetcher.Fetch s.world = ((data, sourceID, none), w'))
    (hparse : unmarshal data = (left, some e)) :
    ∃ s₁ : State σ,
      GetLexicon unmarshal { Refresh := refresh } cf tGet tSet s
        = (({ Entries := [], Source := "" },
            some (.wrapf "failed to parse YAML: " e)), s₁) ∧
      s₁.cache.items cf.source = some ⟨data, sourceID, tSet⟩ ∧
      s₁.calls = s.calls + 1 ∧
      (∀ t t' : Time, t - tSet < s.cache.ttl →
        GetLexicon unmarshal { Refresh := false } cf t t' s₁
          = (({ Entries := [], Source := "" },
              some (.wrapf "failed to parse YAML: " e)), s₁)) ∧
      (∀ ts : List (Time × Time), (∀ p ∈ ts, p.1 - tSet < s.cache.ttl) →
        ts.foldl
          (fun st p => (GetLexicon unmarshal { Refresh := false } cf p.1 p.2 st).2) s₁
          = s₁) ∧
      (∀ t t' : Time,
        (GetLexicon unmarshal { Refresh := true } cf t t' s₁).2.calls = s.calls + 2) ∧
      (∀ t t' : Time, s.cache.ttl ≤ t - tSet →
        (GetLexicon unmarshal { Refresh := false } cf t t' s₁).2.calls
          = s.calls + 2) := by
  have h1 := CachedFetcher.Fetch_fresh_ok cf refresh tGet tSet s data sourceID w'
    hinv hfetch
  have hrep : ∀ t t' : Time, t - tSet < s.cache.ttl →
      GetLexicon unmarshal { Refresh := false } cf t t'
          { cache := s.cache.Set cf.source data sourceID tSet,
            world := w', calls := s.calls + 1 }
        = (({ Entries := [], Source := "" },
            some (.wrapf "failed to parse YAML: " e)),
            { cache := s.cache.Set cf.source data sourceID tSet,
              world := w', calls := s.calls + 1 }) := by
    intro t t' ht
    apply GetLexicon_parse_err unmarshal _ cf t t' _ _ data sourceID left e _ hparse
    apply CachedFetcher.Fetch_hit
    exact Cache.Get_Set_same s.cache cf.source data sourceID tSet t ht
  refine ⟨{ cache := s.cache.Set cf.source data sourceID tSet,
            world := w', calls := s.calls + 1 }, ?_, ?_, rfl, hrep, ?_, ?_, ?_⟩
  · exact GetLexicon_parse_err unmarshal _ cf tGet tSet s _ data sourceID left e h1 hparse
  · simp [Cache.Set]
  · intro ts
    induction ts with
    | nil => intro _; rfl
    | cons p ps ih =>
      intro hall
      rw [List.foldl_cons, hrep p.1 p.2 (hall p (List.mem_cons_self _ _))]
      exact ih (fun q hq => hall q (List.mem_cons_of_mem _ hq))
  · intro t t'
    rw [GetLexicon_state, CachedFetcher.Fetch_invoked_calls cf true t t' _ (Or.inl rfl)]
  · intro t t' hexp
    rw [GetLexicon_state]
    rw [CachedFetcher.Fetch_invoked_calls cf false t t' _
      (Or.inr (Cache.Get_Set_expired s.cache cf.source data sourceID tSet t hexp))]

/-- The test case "invalid YAML returns error", called again: the first call
at clock readings 0 and 1 fetches once and fails to parse; the call at 2 and
the call one nanosecond before the entry is 24 hours old return the same error
with the mock called once; the call at 24 hours after the write, and a call
with `refresh`, call the mock a second time. -/
theorem GetLexicon_bad_bytes_cached_witness :
    ∃ s₁ : State Nat,
      GetLexicon testUnmarshal { Refresh := false }
          (lexiconCachedFetcher invalidYAMLMock) 0 1 testState
        = (({ Entries := [], Source := "" },
            some (.wrapf "failed to parse YAML: "
              (.new "yaml: document is not a sequence of entries"))), s₁) ∧
      s₁.world = 1 ∧
      (GetLexicon testUnmarshal { Refresh := false }
          (lexiconCachedFetcher invalidYAMLMock) 2 3 s₁
        = (({ Entries := [], Source := "" },
            some (.wrapf "failed to parse YAML: "
              (.new "yaml: document is not a sequence of entries"))), s₁)) ∧
      (GetLexicon testUnmarshal { Refresh := false }
          (lexiconCachedFetcher invalidYAMLMock) (24 * Hour) (24 * Hour) s₁
        = (({ Entries := [], Source := "" },
            some (.wrapf "failed to parse YAML: "
              (.new "yaml: document is not a sequence of entries"))), s₁)) ∧
      (GetLexicon testUnmarshal { Refresh := true }
          (lexiconCachedFetcher invalidYAMLMock) 2 3 s₁).2.calls = 2 ∧
      (GetLexicon testUnmarshal { Refresh := false }
          (lexiconCachedFetcher invalidYAMLMock) (24 * Hour + 1) (24 * Hour + 1)
          s₁).2.calls = 2 := by
  obtain ⟨s₁, h1, -, -, hrep, -, href, hexp⟩ :=
    GetLexicon_bad_bytes_cached testUnmarshal (lexiconCachedFetcher invalidYAMLMock)
      false 0 1 testState invalidYAMLBytes "mock://invalid.yaml" 1 []
      (.new "yaml: document is not a sequence of entries") (Or.inr rfl) rfl
      (by decide)
  refine ⟨s₁, h1, ?_, hrep 2 3 (by decide), hrep (24 * Hour) (24 * Hour) (by decide),
    href 2 3, hexp (24 * Hour + 1) (24 * Hour + 1) (by decide)⟩
  have := congrArg (fun r => r.2.world) h1
  simpa [GetLexicon_state] using this.symm.trans (by decide)

/-! ## Theorems: the advisory mode -/

/-- Appending to the same string is injective. -/
theorem string_append_left_cancel (b v₁ v₂ : String) (h : b ++ v₁ = b ++ v₂) :
    v₁ = v₂ := by
  have h' := congrArg String.data h
  rw [String.data_append, String.data_append] at h'
  exact String.ext (List.append_cancel_left h')

/-- A `Fetch` changes no entry of another key. -/
theorem CachedFetcher.Fetch_items_other {σ : Type} (c : CachedFetcher σ)
    (refresh : Bool) (tGet tSet : Time) (s : State σ) (k : String)
    (hk : k ≠ c.source) :
    (c.Fetch refresh tGet tSet s).2.cache.items k = s.cache.items k := by
  rcases CachedFetcher.Fetch_cases c refresh tGet tSet s with
    ⟨-, d, src, -, h⟩ | ⟨-, d, sid, w', -, h⟩ | ⟨-, d, sid, e, w', -, h⟩
  · rw [h]
  · rw [h]; simp [Cache.Set, hk]
  · rw [h]

/-- What a `Fetch` returns does not depend on the entry of another key. -/
theorem CachedFetcher.Fetch_result_other {σ : Type} (c : CachedFetcher σ)
    (refresh : Bool) (tGet tSet : Time) (s : State σ) (k : String)
    (d : Bytes) (sid : String) (t : Time) (hk : c.source ≠ k) :
    (c.Fetch refresh tGet tSet { s with cache := s.cache.Set k d sid t }).1
      = (c.Fetch refresh tGet tSet s).1 := by
  have hg : (s.cache.Set k d sid t).Get c.source tGet = s.cache.Get c.source tGet :=
    Cache.Get_Set_other s.cache k c.source d sid t tGet hk
  rcases hf : c.fetcher.Fetch s.world with ⟨⟨fd, fsid, fe⟩, w'⟩
  rcases hget : s.cache.Get c.source tGet with ⟨cd, cs, b⟩
  cases refresh <;> cases b <;> cases fe <;>
    simp [CachedFetcher.Fetch, hg, hf, hget]

/-- The state that `GetSchemaDocs` leaves is the one its `Fetch` leaves. -/
theorem GetSchemaDocs_state {σ : Type} (input : InputGetSchemaDocs)
    (cf : CachedFetcher σ) (tGet tSet : Time) (s : State σ) :
    (GetSchemaDocs input cf tGet tSet s).2 = (cf.Fetch input.Refresh tGet tSet s).2 := by
  rcases hF : cf.Fetch input.Refresh tGet tSet s with ⟨⟨d, sid, fe⟩, s'⟩
  cases fe <;> simp [GetSchemaDocs, hF]

/-- What `GetSchemaDocs` returns is decided by what its `Fetch` returns. -/
theorem GetSchemaDocs_result {σ : Type} (input : InputGetSchemaDocs)
    (cf : CachedFetcher σ) (tGet tSet : Time) (s : State σ) :
    (GetSchemaDocs input cf tGet tSet s).1 =
      match (cf.Fetch input.Refresh tGet tSet s).1 with
      | (_, _, some err) => ({ Documentation := [], URL := "" }, some err)
      | (data, sourceID, none) =>
        ({ Documentation := goString data, URL := sourceID }, none) := by
  rcases hF : cf.Fetch input.Refresh tGet tSet s with ⟨⟨d, sid, fe⟩, s'⟩
  cases fe <;> simp [GetSchemaDocs, hF]

/-- C6. `getSchemaDocs` fetches from, and caches under, the base URL followed
by the version, `"latest"` standing for an empty version. Two requests whose
resolved versions differ have different URLs, and then a call for one leaves
the cache entry of the other as it was and returns the same whatever that
entry holds. -/
theorem AdvisoryMode.getSchemaDocs_keys {σ : Type} (a : AdvisoryMode)
    (net : HTTPClient σ) (i₁ i₂ : InputGetSchemaDocs) :
    a.schemaDocsSource i₁
      = a.schemaDocsBaseURL ++ (if i₁.Version = "" then "latest" else i₁.Version) ∧
    (∀ (tGet tSet : Time) (s : State σ),
      a.getSchemaDocs net i₁ tGet tSet s
        = GetSchemaDocs i₁
            (NewCachedFetcher
              ((NewHTTPFetcher (a.schemaDocsSource i₁) httpTimeout).toFetcher net)
              (a.schemaDocsSource i₁)) tGet tSet s) ∧
    ((if i₁.Version = "" then "latest" else i₁.Version)
        ≠ (if i₂.Version = "" then "latest" else i₂.Version) →
      a.schemaDocsSource i₁ ≠ a.schemaDocsSource i₂ ∧
      (∀ (tGet tSet : Time) (s : State σ),
        (a.getSchemaDocs net i₁ tGet tSet s).2.cache.items (a.schemaDocsSource i₂)
          = s.cache.items (a.schemaDocsSource i₂)) ∧
      (∀ (tGet tSet : Time) (s : State σ) (d : Bytes) (sid : String) (t : Time),
        (a.getSchemaDocs net i₁ tGet tSet
            { s with cache := s.cache.Set (a.schemaDocsSource i₂) d sid t }).1
          = (a.getSchemaDocs net i₁ tGet tSet s).1)) := by
  refine ⟨rfl, fun _ _ _ => rfl, ?_⟩
  intro hv
  have hne : a.schemaDocsSource i₁ ≠ a.schemaDocsSource i₂ := by
    intro h
    exact hv (string_append_left_cancel a.schemaDocsBaseURL _ _ h)
  refine ⟨hne, ?_, ?_⟩
  · intro tGet tSet s
    unfold AdvisoryMode.getSchemaDocs
    rw [GetSchemaDocs_state]
    exact CachedFetcher.Fetch_items_other _ _ _ _ _ _ (Ne.symm hne)
  · intro tGet tSet s d sid t
    unfold AdvisoryMode.getSchemaDocs
    rw [GetSchemaDocs_result, GetSchemaDocs_result]
    rw [CachedFetcher.Fetch_result_other _ _ _ _ _ _ _ _ _ hne]

/-- The tool called with no version and with `"v1.2.0"`, on a server that has
just started: the URLs end in `latest` and `v1.2.0`, they differ, and after
the two calls the cache holds an entry under each, the first one untouched by
the second call. -/
theorem AdvisoryMode.getSchemaDocs_keys_witness :
    NewAdvisoryMode.schemaDocsSource { Refresh := false, Version := "" }
      = "https://registry.cue.works/docs/github.com/gemaraproj/gemara@latest" ∧
    NewAdvisoryMode.schemaDocsSource { Refresh := false, Version := "v1.2.0" }
      = "https://registry.cue.works/docs/github.com/gemaraproj/gemara@v1.2.0" ∧
    NewAdvisoryMode.schemaDocsSource { Refresh := false, Version := "v1.2.0" }
      ≠ NewAdvisoryMode.schemaDocsSource { Refresh := false, Version := "" } ∧
    (NewAdvisoryMode.getSchemaDocs echoClient { Refresh := false, Version := "v1.2.0" } 2 3
        (NewAdvisoryMode.getSchemaDocs echoClient { Refresh := false, Version := "" }
          0 1 serveState).2).2.cache.items
        (NewAdvisoryMode.schemaDocsSource { Refresh := false, Version := "" })
      = (NewAdvisoryMode.getSchemaDocs echoClient { Refresh := false, Version := "" }
          0 1 serveState).2.cache.items
        (NewAdvisoryMode.schemaDocsSource { Refresh := false, Version := "" }) ∧
    ((NewAdvisoryMode.getSchemaDocs echoClient { Refresh := false, Version := "" }
          0 1 serveState).2.cache.items
        "https://registry.cue.works/docs/github.com/gemaraproj/gemara@latest").isSome
      = true ∧
    ((NewAdvisoryMode.getSchemaDocs echoClient { Refresh := false, Version := "v1.2.0" } 2 3
        (NewAdvisoryMode.getSchemaDocs echoClient { Refresh := false, Version := "" }
          0 1 serveState).2).2.cache.items
        "https://registry.cue.works/docs/github.com/gemaraproj/gemara@v1.2.0").isSome
      = true :=
  ⟨(AdvisoryMode.getSchemaDocs_keys NewAdvisoryMode echoClient
      { Refresh := false, Version := "" } { Refresh := false, Version := "v1.2.0" }).1,
   (AdvisoryMode.getSchemaDocs_keys NewAdvisoryMode echoClient
      { Refresh := false, Version := "v1.2.0" } { Refresh := false, Version := "" }).1,
   ((AdvisoryMode.getSchemaDocs_keys NewAdvisoryMode echoClient
      { Refresh := false, Version := "v1.2.0" } { Refresh := false, Version := "" }).2.2
      (by decide)).1,
   ((AdvisoryMode.getSchemaDocs_keys NewAdvisoryMode echoClient
      { Refresh := false, Version := "v1.2.0" } { Refresh := false, Version := "" }).2.2
      (by decide)).2.1 2 3 _,
   by decide, by decide⟩

/-- A successful `HTTPFetcher.Fetch` returns its own URL as the source
identifier, and as data the body of a `200` response read without error. -/
theorem HTTPFetcher.Fetch_ok_inv {σ : Type} (f : HTTPFetcher) (net : HTTPClient σ)
    (w w' : σ) (d : Bytes) (sid : String)
    (h : f.Fetch net w = ((d, sid, none), w')) :
    sid = f.url ∧
    ∃ resp : Response, net.Do f.timeout f.url w = (.ok resp, w') ∧
      resp.StatusCode = 200 ∧ resp.Body = (d, none) := by
  unfold HTTPFetcher.Fetch at h
  cases hreq : net.NewRequest f.url with
  | some e => simp [hreq] at h
  | none =>
    rcases hdo : net.Do f.timeout f.url w with ⟨r, w''⟩
    cases r with
    | error e => simp [hreq, hdo] at h
    | ok resp =>
      by_cases hs : resp.StatusCode = http.StatusOK
      · rcases hb : resp.Body with ⟨body, be⟩
        cases be with
        | some e => simp [hreq, hdo, hs, hb] at h
        | none =>
          simp only [hreq, hdo, hs, hb, ne_eq, not_true_eq_false, if_false,
            Prod.mk.injEq, and_true] at h
          obtain ⟨⟨rfl, rfl⟩, rfl⟩ := h
          exact ⟨rfl, resp, rfl, hs, hb⟩
      · simp [hreq, hdo, hs] at h

/-- A `Fetch` whose underlying fetcher names the key as the source of what
it returns keeps the property that every entry's source is its key. -/
theorem CachedFetcher.Fetch_keeps_source_key {σ : Type} (c : CachedFetcher σ)
    (refresh : Bool) (tGet tSet : Time) (s : State σ)
    (hsrc : ∀ d sid w', c.fetcher.Fetch s.world = ((d, sid, none), w') → sid = c.source)
    (hinv : ∀ k item, s.cache.items k = some item → item.source = k) :
    ∀ k item, (c.Fetch refresh tGet tSet s).2.cache.items k = some item →
      item.source = k := by
  intro k item hk
  rcases CachedFetcher.Fetch_cases c refresh tGet tSet s with
    ⟨-, d, src, -, h⟩ | ⟨-, d, sid, w', hf, h⟩ | ⟨-, d, sid, e, w', -, h⟩
  · rw [h] at hk; exact hinv k item hk
  · rw [h] at hk
    by_cases hks : k = c.source
    · simp only [Cache.Set, hks, if_true, Option.some.injEq] at hk
      rw [← hk, hks]
      exact hsrc d sid w' hf
    · simp only [Cache.Set, hks, if_false] at hk
      exact hinv k item hk
  · rw [h] at hk; exact hinv k item hk

/-- In every reachable state each cache entry's source is its key. -/
theorem Reachable.source_is_key {σ : Type} (a : AdvisoryMode) (net : HTTPClient σ)
    (unmarshal : Unmarshal) (ttl : Duration) (s : State σ)
    (h : Reachable a net unmarshal ttl s) :
    ∀ k item, s.cache.items k = some item → item.source = k := by
  induction h with
  | init w => intro k item hk; simp [NewCache] at hk
  | lexicon s input tGet tSet _ ih =>
    unfold AdvisoryMode.getLexicon
    rw [GetLexicon_state]
    apply CachedFetcher.Fetch_keeps_source_key _ _ _ _ _ _ ih
    intro d sid w' hf
    exact (HTTPFetcher.Fetch_ok_inv _ net _ _ _ _ hf).1
  | schemaDocs s input tGet tSet _ ih =>
    unfold AdvisoryMode.getSchemaDocs
    rw [GetSchemaDocs_state]
    apply CachedFetcher.Fetch_keeps_source_key _ _ _ _ _ _ ih
    intro d sid w' hf
    exact (HTTPFetcher.Fetch_ok_inv _ net _ _ _ _ hf).1

/-- C9. In a cache state reached from the empty cache by calls of the
advisory-mode handlers, the source identifier of every entry is its key. A
`get_schema_docs` call that succeeds in such a state returns as `url` the base
URL followed by the resolved version, and as documentation the bytes as they
are: those of the valid entry of that URL when it is served from the cache,
those of the body of the `200` response to the request for that URL when it
fetches. -/
theorem AdvisoryMode.getSchemaDocs_verbatim {σ : Type} (a : AdvisoryMode)
    (net : HTTPClient σ) (unmarshal : Unmarshal) (ttl : Duration) (s : State σ)
    (h : Reachable a net unmarshal ttl s) :
    (∀ k item, s.cache.items k = some item → item.source = k) ∧
    ∀ (input : InputGetSchemaDocs) (tGet tSet : Time) (out : OutputGetSchemaDocs)
      (s' : State σ),
      a.getSchemaDocs net input tGet tSet s = ((out, none), s') →
        out.URL = a.schemaDocsBaseURL
          ++ (if input.Version = "" then "latest" else input.Version) ∧
        ((input.Refresh = false ∧ s' = s ∧
            ∃ item, s.cache.items (a.schemaDocsSource input) = some item ∧
              tGet - item.cacheTime < s.cache.ttl ∧
              out.Documentation = goString item.data) ∨
          ((input.Refresh = true ∨
              (s.cache.Get (a.schemaDocsSource input) tGet).2.2 = false) ∧
            ∃ (resp : Response) (w' : σ),
              net.Do httpTimeout (a.schemaDocsSource input) s.world = (.ok resp, w') ∧
              resp.StatusCode = 200 ∧ resp.Body.2 = none ∧
              out.Documentation = goString resp.Body.1 ∧
              s'.cache.items (a.schemaDocsSource input)
                = some ⟨resp.Body.1, a.schemaDocsSource input, tSet⟩)) := by
  have hinv := Reachable.source_is_key a net unmarshal ttl s h
  refine ⟨hinv, ?_⟩
  intro input tGet tSet out s' hcall
  have hres := GetSchemaDocs_result input
    (NewCachedFetcher
      ((NewHTTPFetcher (a.schemaDocsSource input) httpTimeout).toFetcher net)
      (a.schemaDocsSource input)) tGet tSet s
  have hst := GetSchemaDocs_state input
    (NewCachedFetcher
      ((NewHTTPFetcher (a.schemaDocsSource input) httpTimeout).toFetcher net)
      (a.schemaDocsSource input)) tGet tSet s
  have hcall' : GetSchemaDocs input
      (NewCachedFetcher
        ((NewHTTPFetcher (a.schemaDocsSource input) httpTimeout).toFetcher net)
        (a.schemaDocsSource input)) tGet tSet s = ((out, none), s') := hcall
  rw [hcall'] at hres hst
  rcases CachedFetcher.Fetch_cases
    (NewCachedFetcher
      ((NewHTTPFetcher (a.schemaDocsSource input) httpTimeout).toFetcher net)
      (a.schemaDocsSource input)) input.Refresh tGet tSet s with
    ⟨hr, d, src, hget, hF⟩ | ⟨hi, d, sid, w', hf, hF⟩ | ⟨-, d, sid, e, w', -, hF⟩
  · rw [hF] at hres hst
    simp only [Prod.mk.injEq, and_true] at hres
    simp only at hst
    obtain ⟨item, hitem, hage⟩ :=
      Cache.Get_found_inv s.cache (a.schemaDocsSource input) tGet d src hget
    have hsrc : src = a.schemaDocsSource input := hinv _ _ hitem
    refine ⟨by rw [hres, hsrc]; rfl, Or.inl ⟨hr, hst, _, hitem, hage, by rw [hres]⟩⟩
  · rw [hF] at hres hst
    simp only [Prod.mk.injEq, and_true] at hres
    simp only at hst
    obtain ⟨hsid, resp, hdo, h200, hbody⟩ := HTTPFetcher.Fetch_ok_inv _ net _ _ _ _ hf
    have hsid' : sid = a.schemaDocsSource input := hsid
    refine ⟨by rw [hres, hsid']; rfl, Or.inr ⟨hi, resp, w', hdo, h200, ?_, ?_, ?_⟩⟩
    · rw [hbody]
    · rw [hres, hbody]
    · rw [hst, hbody, hsid']
      simp [Cache.Set, NewCachedFetcher]
  · rw [hF] at hres
    simp at hres

/-- After one call with no version the entry under the `latest` URL names
that URL as its source, and a second call, served from the cache, returns
that URL and the cached bytes. -/
theorem AdvisoryMode.getSchemaDocs_verbatim_witness :
    (∀ item, servedOnceState.cache.items
        "https://registry.cue.works/docs/github.com/gemaraproj/gemara@latest" = some item →
      item.source
        = "https://registry.cue.works/docs/github.com/gemaraproj/gemara@latest") ∧
    servedOnceState.calls = 1 ∧
    (NewAdvisoryMode.getSchemaDocs echoClient { Refresh := false, Version := "" } 2 3
        servedOnceState).1 = (latestOutput, none) ∧
    latestOutput.URL = NewAdvisoryMode.schemaDocsBaseURL ++ "latest" := by
  have h := AdvisoryMode.getSchemaDocs_verbatim NewAdvisoryMode echoClient testUnmarshal
    (24 * Hour) servedOnceState
    (Reachable.schemaDocs _ { Refresh := false, Version := "" } 0 1 (Reachable.init 0))
  have hcall : NewAdvisoryMode.getSchemaDocs echoClient
      { Refresh := false, Version := "" } 2 3 servedOnceState
      = ((latestOutput, none), servedOnceState) := by
    apply Prod.ext
    · decide
    · rw [AdvisoryMode.getSchemaDocs, GetSchemaDocs_state]
      have hget : servedOnceState.cache.Get
          "https://registry.cue.works/docs/github.com/gemaraproj/gemara@latest" 2
          = (latestOutput.Documentation, latestOutput.URL, true) := by decide
      exact congrArg Prod.snd (CachedFetcher.Fetch_hit _ 2 3 servedOnceState _ _ hget)
  exact ⟨fun item hitem => h.1 _ item hitem, by decide, congrArg Prod.fst hcall,
    (h.2 { Refresh := false, Version := "" } 2 3 _ _ hcall).1⟩

end Gemara
